import Mathlib

/-!
Shallow embedding of `src/server/src/middleware/rate-limiter.middleware.ts`,
a fixed-window in-memory rate limiter for an Express server, together with
proofs of the specified properties.

Modelling conventions:
* JS numbers that hold integer values (timestamps, counts, window lengths,
  request ceilings) are modelled as `Int`.
* The global `rateLimitStore : Map<string, RateLimitEntry>` is modelled as an
  association list `Store`; `mapGet`/`mapSet` model `Map.get`/`Map.set`
  (`mapSet` replaces the first binding of the key in place, or appends).
  A list that represents a reachable `Map` state has no duplicate keys
  (`StoreWF`).
* `res.setHeader` calls are modelled by recording the numeric header values the
  handler sets during one request (`ResponseHeaders`); the JS code stringifies
  these same integers with `String(...)`.
* Calling `next()` / `next(err)` is modelled by the `NextCall` outcome.
* `Math.ceil(x / 1000)` on integer millisecond differences is `jsCeilDiv x
  1000`; on `Int`, division by a positive constant floors, so `-((-x) / d)` is
  exactly the ceiling of `x / d`.
* The JS `a || b` chain on strings treats `undefined` and `""` as falsy;
  `jsOrString` reproduces that.
-/

namespace RL

/-- Entry of the rate-limit table: `interface RateLimitEntry` of the source
(`count`, `resetAt`). -/
structure RateLimitEntry where
  count : Int
  resetAt : Int
deriving DecidableEq, Repr

/-- Configuration of one limiter instance: `interface RateLimitOptions` of the
source (`windowMs`, `maxRequests`, optional `message`). -/
structure RateLimitOptions where
  windowMs : Int
  maxRequests : Int
  message : Option String
deriving DecidableEq, Repr

/-- Modelled from the spec: the class `ApiError` lives in
`error.middleware.ts`, which is not among the provided sources; only its
constructor call `new ApiError(errorMessage, 429, retryAfter-details)` appears
in the rate limiter.  The spec describes the denial error as "a structured
error object with status code 429, a message string, and a `retryAfter`
integer (seconds)", which is what this structure records. -/
structure ApiError where
  message : String
  statusCode : Int
  retryAfter : Int
deriving DecidableEq, Repr

/-- How the middleware hands control onward: `next()` with no argument,
`next(rateError)` with the structured `ApiError`, or `next(error)` from the
`catch` block with whatever was thrown (modelled as a string). -/
inductive NextCall where
  | next : NextCall
  | apiError : ApiError → NextCall
  | caught : String → NextCall
deriving DecidableEq, Repr

/-- The numeric values of the response headers the handler sets during one
request; `none` means the header was not set. -/
structure ResponseHeaders where
  xRateLimitLimit : Option Int
  xRateLimitRemaining : Option Int
  xRateLimitReset : Option Int
  retryAfterHeader : Option Int
deriving DecidableEq, Repr

/-- No headers set (the state in which the handler starts). -/
def noHeaders : ResponseHeaders :=
  { xRateLimitLimit := none, xRateLimitRemaining := none
    xRateLimitReset := none, retryAfterHeader := none }

/-- The parts of the Express request the limiter reads: `req.ip`,
`req.socket.remoteAddress` (each possibly `undefined`), and `req.path`. -/
structure Request where
  ip : Option String
  remoteAddress : Option String
  path : String
deriving DecidableEq, Repr

/-- The shared counter table `rateLimitStore`, as an association list from
composite keys to entries. -/
abbrev Store : Type := List (String × RateLimitEntry)

/-- The initial (empty) `rateLimitStore`. -/
def rateLimitStore : Store := []

/-- A store that represents a JS `Map` state: no duplicate keys. -/
def StoreWF (s : Store) : Prop := (s.map Prod.fst).Nodup

instance storeWFDecidable (s : Store) : Decidable (StoreWF s) :=
  inferInstanceAs (Decidable (s.map Prod.fst).Nodup)

/-- `Map.get`: the value bound to the first occurrence of the key, if any. -/
def mapGet : Store → String → Option RateLimitEntry
  | [], _ => none
  | kv :: rest, key => if kv.1 = key then some kv.2 else mapGet rest key

/-- `Map.set`: replace the first binding of the key in place, or append a new
binding. -/
def mapSet : Store → String → RateLimitEntry → Store
  | [], key, v => [(key, v)]
  | kv :: rest, key, v =>
    if kv.1 = key then (key, v) :: rest else kv :: mapSet rest key v

/-- One run of the cleanup callback registered with `setInterval`: iterate over
the table and delete every entry with `entry.resetAt <= now`. -/
def sweep (now : Int) (s : Store) : Store :=
  s.filter fun kv => decide (now < kv.2.resetAt)

/-- The cleanup period: `CLEANUP_INTERVAL = 10 * 60 * 1000` milliseconds. -/
def CLEANUP_INTERVAL : Int := 10 * 60 * 1000

/-- The lookup as the decision procedure observes it at time `now`: an entry
whose `resetAt` is not in the future is indistinguishable from an absent one
(both take the fresh-entry branch). -/
def activeGet (now : Int) (s : Store) (k : String) : Option RateLimitEntry :=
  match mapGet s k with
  | none => none
  | some e => if e.resetAt ≤ now then none else some e

/-- JS `a || b` for an optional string: `undefined` and `""` are falsy. -/
def jsOrString : Option String → String → String
  | none, b => b
  | some s, b => if s = "" then b else s

/-- Integer form of `Math.ceil(x / d)` for `d > 0`: on `Int`, division by a
positive constant floors, and the ceiling is the negated floor of the
negation. -/
def jsCeilDiv (x d : Int) : Int := -((-x) / d)

/-- The identifier the handler uses: `req.ip || req.socket.remoteAddress ||
'unknown'`. -/
def resolveIdentifier (req : Request) : String :=
  jsOrString req.ip (jsOrString req.remoteAddress "unknown")

/-- The composite key, built by the source's template literal: the resolved
identifier, a colon, then the request path. -/
def requestKey (req : Request) : String :=
  resolveIdentifier req ++ ":" ++ req.path

/-- Everything one invocation of the handler produced: the table afterwards,
the headers set, and the `next` call made. -/
structure StepResult where
  store : Store
  headers : ResponseHeaders
  call : NextCall
deriving DecidableEq, Repr

/-- The `!entry || entry.resetAt <= now` branch: store a fresh entry with
`count = 1` and `resetAt = now + windowMs`, set the three rate-limit headers
(remaining is literally `maxRequests - 1`), and call `next()` with no
argument. -/
def freshResult (options : RateLimitOptions) (store : Store) (key : String)
    (now : Int) : StepResult :=
  let entry : RateLimitEntry := { count := 1, resetAt := now + options.windowMs }
  { store := mapSet store key entry
    headers :=
      { xRateLimitLimit := some options.maxRequests
        xRateLimitRemaining := some (options.maxRequests - 1)
        xRateLimitReset := some entry.resetAt
        retryAfterHeader := none }
    call := NextCall.next }

/-- The live-entry branch: increment `count`, store the entry back, set the
three rate-limit headers with remaining `max(0, maxRequests - count)`, then
either deny (post-increment `count > maxRequests`: build the `ApiError` with
status 429 and `retryAfter = ceil((resetAt - now)/1000)`, set `Retry-After`,
and call `next(rateError)`) or admit with `next()`. -/
def activeResult (options : RateLimitOptions) (store : Store) (key : String)
    (entry : RateLimitEntry) (now : Int) : StepResult :=
  let entry2 : RateLimitEntry := { count := entry.count + 1, resetAt := entry.resetAt }
  let store2 := mapSet store key entry2
  let headers : ResponseHeaders :=
    { xRateLimitLimit := some options.maxRequests
      xRateLimitRemaining := some (max 0 (options.maxRequests - entry2.count))
      xRateLimitReset := some entry2.resetAt
      retryAfterHeader := none }
  if options.maxRequests < entry2.count then
    let resetInSeconds := jsCeilDiv (entry2.resetAt - now) 1000
    let errorMessage := jsOrString options.message
      ("Too many requests, please try again in " ++ toString resetInSeconds
        ++ " seconds")
    { store := store2
      headers := { headers with retryAfterHeader := some resetInSeconds }
      call := NextCall.apiError
        { message := errorMessage, statusCode := 429, retryAfter := resetInSeconds } }
  else
    { store := store2, headers := headers, call := NextCall.next }

/-- The decision procedure for one request once the composite key is known:
look the key up and dispatch on `!entry || entry.resetAt <= now`. -/
def limiterStep (options : RateLimitOptions) (store : Store) (key : String)
    (now : Int) : StepResult :=
  match mapGet store key with
  | none => freshResult options store key now
  | some entry =>
    if entry.resetAt ≤ now then freshResult options store key now
    else activeResult options store key entry now

/-- The handler returned by `rateLimiter(options)`, applied to one request at
time `now`, when reading the request fields does not throw. -/
def rateLimiter (options : RateLimitOptions) (store : Store) (req : Request)
    (now : Int) : StepResult :=
  limiterStep options store (requestKey req) now

/-- Identifier resolution `req.ip || req.socket.remoteAddress || 'unknown'`
when the two reads are possibly-throwing getters, with JS short-circuiting:
the second getter is only read when the first yields a falsy value. -/
def resolveIdentifierE (getIp getRemoteAddress : Except String (Option String)) :
    Except String String :=
  match getIp with
  | Except.error e => Except.error e
  | Except.ok (some s) =>
    if s = "" then
      match getRemoteAddress with
      | Except.error e => Except.error e
      | Except.ok r => Except.ok (jsOrString r "unknown")
    else Except.ok s
  | Except.ok none =>
    match getRemoteAddress with
    | Except.error e => Except.error e
    | Except.ok r => Except.ok (jsOrString r "unknown")

/-- The full handler body including the `try/catch`: any exception from the
possibly-throwing getters is caught and forwarded via `next(error)`, leaving
the table and the headers untouched. -/
def rateLimiterChecked (options : RateLimitOptions) (store : Store)
    (getIp getRemoteAddress : Except String (Option String)) (path : String)
    (now : Int) : StepResult :=
  match resolveIdentifierE getIp getRemoteAddress with
  | Except.error e =>
    { store := store, headers := noHeaders, call := NextCall.caught e }
  | Except.ok ident => limiterStep options store (ident ++ ":" ++ path) now

/-- `standardLimiter`: the predefined general-traffic policy. -/
def standardLimiterOptions : RateLimitOptions :=
  { windowMs := 60 * 1000, maxRequests := 60
    message := some "Too many requests from this IP, please try again after a minute" }

/-- `authLimiter`: the predefined stricter policy for authentication routes. -/
def authLimiterOptions : RateLimitOptions :=
  { windowMs := 15 * 60 * 1000, maxRequests := 10
    message := some "Too many authentication attempts, please try again after 15 minutes" }

/-- One step of a trace: which options the mounted instance was built with,
the request, and the clock reading `Date.now()` for that request. -/
structure TraceStep where
  options : RateLimitOptions
  req : Request
  now : Int

/-- Run a sequence of requests through the shared table, threading the store. -/
def runTrace : Store → List TraceStep → List StepResult
  | _, [] => []
  | s, st :: rest =>
    let r := rateLimiter st.options s st.req st.now
    r :: runTrace r.store rest

/-- The externally observable outcome of each step: the `next` call made and
the headers set (the table itself is internal). -/
def outcomes (rs : List StepResult) : List (NextCall × ResponseHeaders) :=
  rs.map fun r => (r.call, r.headers)

/-- A junk result used as a `List.getD` default. -/
def dummyResult : StepResult :=
  { store := [], headers := noHeaders, call := NextCall.next }

/-! ### Lemmas about the association-list model of the `Map` -/

theorem mapGet_mapSet_self (s : Store) (k : String) (v : RateLimitEntry) :
    mapGet (mapSet s k v) k = some v := by
  induction s with
  | nil => simp [mapSet, mapGet]
  | cons kv rest ih =>
    by_cases h : kv.1 = k
    · simp [mapSet, h, mapGet]
    · simp [mapSet, h, mapGet, ih]

theorem mapGet_mapSet_ne (s : Store) (k : String) (v : RateLimitEntry)
    (k' : String) (h : k' ≠ k) : mapGet (mapSet s k v) k' = mapGet s k' := by
  induction s with
  | nil => simp [mapSet, mapGet, Ne.symm h]
  | cons kv rest ih =>
    by_cases hk : kv.1 = k
    · have hk' : kv.1 ≠ k' := by rw [hk]; exact Ne.symm h
      simp [mapSet, hk, mapGet, Ne.symm h, hk']
    · simp [mapSet, hk, mapGet, ih]

theorem mapGet_of_not_mem (s : Store) (k : String)
    (h : k ∉ s.map Prod.fst) : mapGet s k = none := by
  induction s with
  | nil => rfl
  | cons kv rest ih =>
    simp only [List.map_cons, List.mem_cons, not_or] at h
    have h1 : ¬kv.1 = k := fun he => h.1 he.symm
    simp [mapGet, h1, ih h.2]

theorem activeGet_mapSet_self (t : Int) (s : Store) (k : String)
    (v : RateLimitEntry) :
    activeGet t (mapSet s k v) k = if v.resetAt ≤ t then none else some v := by
  simp [activeGet, mapGet_mapSet_self]

theorem activeGet_mapSet_ne (t : Int) (s : Store) (k : String)
    (v : RateLimitEntry) (k' : String) (h : k' ≠ k) :
    activeGet t (mapSet s k v) k' = activeGet t s k' := by
  simp [activeGet, mapGet_mapSet_ne s k v k' h]

theorem activeGet_mono (t u : Int) (s s' : Store) (k : String) (htu : t ≤ u)
    (h : activeGet t s k = activeGet t s' k) :
    activeGet u s k = activeGet u s' k := by
  unfold activeGet at h ⊢
  cases hs : mapGet s k with
  | none =>
    cases hs' : mapGet s' k with
    | none => rfl
    | some e' =>
      rw [hs, hs'] at h
      dsimp only at h ⊢
      by_cases c : e'.resetAt ≤ t
      · rw [if_pos (le_trans c htu)]
      · rw [if_neg c] at h
        exact absurd h (by simp)
  | some e =>
    cases hs' : mapGet s' k with
    | none =>
      rw [hs, hs'] at h
      dsimp only at h ⊢
      by_cases c : e.resetAt ≤ t
      · rw [if_pos (le_trans c htu)]
      · rw [if_neg c] at h
        exact absurd h (by simp)
    | some e' =>
      rw [hs, hs'] at h
      dsimp only at h ⊢
      by_cases c : e.resetAt ≤ t <;> by_cases c' : e'.resetAt ≤ t
      · rw [if_pos (le_trans c htu), if_pos (le_trans c' htu)]
      · rw [if_pos c, if_neg c'] at h
        exact absurd h (by simp)
      · rw [if_neg c, if_pos c'] at h
        exact absurd h (by simp)
      · rw [if_neg c, if_neg c'] at h
        obtain rfl : e = e' := by simpa using h
        rfl

/-! ### Lemmas about the single-step decision procedure -/

theorem freshResult_store (o : RateLimitOptions) (s : Store) (key : String)
    (now : Int) :
    (freshResult o s key now).store =
      mapSet s key { count := 1, resetAt := now + o.windowMs } := rfl

theorem activeResult_store (o : RateLimitOptions) (s : Store) (key : String)
    (e : RateLimitEntry) (now : Int) :
    (activeResult o s key e now).store =
      mapSet s key { count := e.count + 1, resetAt := e.resetAt } := by
  unfold activeResult
  by_cases hc : o.maxRequests < e.count + 1 <;> simp [hc]

theorem activeResult_call_indep (o : RateLimitOptions) (s s' : Store)
    (key key' : String) (e : RateLimitEntry) (now : Int) :
    (activeResult o s key e now).call = (activeResult o s' key' e now).call := by
  unfold activeResult
  by_cases hc : o.maxRequests < e.count + 1 <;> simp [hc]

theorem activeResult_headers_indep (o : RateLimitOptions) (s s' : Store)
    (key key' : String) (e : RateLimitEntry) (now : Int) :
    (activeResult o s key e now).headers =
      (activeResult o s' key' e now).headers := by
  unfold activeResult
  by_cases hc : o.maxRequests < e.count + 1 <;> simp [hc]

/-- The decision procedure factors through the active view of the table: an
expired entry takes the very branch an absent one takes. -/
theorem limiterStep_eq_activeGet (o : RateLimitOptions) (s : Store)
    (key : String) (now : Int) :
    limiterStep o s key now =
      match activeGet now s key with
      | none => freshResult o s key now
      | some e => activeResult o s key e now := by
  unfold limiterStep activeGet
  cases hs : mapGet s key with
  | none => rfl
  | some e => by_cases he : e.resetAt ≤ now <;> simp [he]

/-- Two tables that agree on the active view at the step's key produce the
same call, the same headers, and write the same entry at that key. -/
theorem limiterStep_congr (o : RateLimitOptions) (s s' : Store) (key : String)
    (now : Int) (h : activeGet now s key = activeGet now s' key) :
    ∃ E : RateLimitEntry,
      (limiterStep o s key now).store = mapSet s key E ∧
      (limiterStep o s' key now).store = mapSet s' key E ∧
      (limiterStep o s key now).call = (limiterStep o s' key now).call ∧
      (limiterStep o s key now).headers = (limiterStep o s' key now).headers := by
  rw [limiterStep_eq_activeGet o s key now, limiterStep_eq_activeGet o s' key now,
    ← h]
  cases hv : activeGet now s key with
  | none =>
    exact ⟨{ count := 1, resetAt := now + o.windowMs },
      freshResult_store o s key now, freshResult_store o s' key now, rfl, rfl⟩
  | some e =>
    exact ⟨{ count := e.count + 1, resetAt := e.resetAt },
      activeResult_store o s key e now, activeResult_store o s' key e now,
      activeResult_call_indep o s s' key key e now,
      activeResult_headers_indep o s s' key key e now⟩

/-! ### Lemmas about the background sweep -/

theorem sweep_cons (now : Int) (kv : String × RateLimitEntry) (rest : Store) :
    sweep now (kv :: rest) =
      if now < kv.2.resetAt then kv :: sweep now rest else sweep now rest := by
  by_cases c : now < kv.2.resetAt <;> simp [sweep, List.filter_cons, c]

theorem activeGet_cons (now : Int) (kv : String × RateLimitEntry)
    (rest : Store) (k : String) :
    activeGet now (kv :: rest) k =
      if kv.1 = k then (if kv.2.resetAt ≤ now then none else some kv.2)
      else activeGet now rest k := by
  by_cases hk : kv.1 = k
  · have h1 : mapGet (kv :: rest) k = some kv.2 := by simp [mapGet, hk]
    unfold activeGet
    rw [h1, if_pos hk]
  · have h1 : mapGet (kv :: rest) k = mapGet rest k := by simp [mapGet, hk]
    unfold activeGet
    rw [h1, if_neg hk]

/-- On a duplicate-free table, the table after one sweep at time `now` binds
each key to exactly what the decision procedure's active view at `now` saw
before the sweep: expired and absent keys are unbound, live entries are bound
unchanged. -/
theorem mapGet_sweep (now : Int) (s : Store) (hwf : StoreWF s) (k : String) :
    mapGet (sweep now s) k = activeGet now s k := by
  induction s with
  | nil => rfl
  | cons kv rest ih =>
    have hwf2 : kv.1 ∉ rest.map Prod.fst ∧ StoreWF rest := by
      simpa [StoreWF, List.nodup_cons] using hwf
    rw [sweep_cons, activeGet_cons]
    by_cases hk : kv.1 = k
    · subst hk
      by_cases c : now < kv.2.resetAt
      · rw [if_pos c]
        simp [mapGet, not_le.mpr c]
      · rw [if_neg c]
        have hnone : mapGet (sweep now rest) kv.1 = none := by
          apply mapGet_of_not_mem
          intro hmem
          exact hwf2.1 (((List.filter_sublist rest).map Prod.fst).subset hmem)
        rw [hnone]
        simp [not_lt.mp c]
    · by_cases c : now < kv.2.resetAt
      · rw [if_pos c]
        simp [mapGet, hk, ih hwf2.2]
      · rw [if_neg c]
        simp [hk, ih hwf2.2]

theorem activeGet_sweep (now : Int) (s : Store) (hwf : StoreWF s) (k : String) :
    activeGet now (sweep now s) k = activeGet now s k := by
  have h := mapGet_sweep now s hwf k
  unfold activeGet at h ⊢
  rw [h]
  cases hg : mapGet s k with
  | none => rfl
  | some e =>
    dsimp only
    by_cases c : e.resetAt ≤ now
    · rw [if_pos c]
    · rw [if_neg c]
      dsimp only
      rw [if_neg c]

/-! ### Congruence of whole traces -/

/-- Two tables whose active views at time `tc` coincide everywhere produce
identical calls and headers on every subsequent trace whose clock readings are
at least `tc`. -/
theorem outcomes_runTrace_congr (tc : Int) (steps : List TraceStep) :
    ∀ s s' : Store, (∀ k, activeGet tc s k = activeGet tc s' k) →
      (∀ st ∈ steps, tc ≤ st.now) →
      outcomes (runTrace s steps) = outcomes (runTrace s' steps) := by
  induction steps with
  | nil =>
    intro s s' _ _
    rfl
  | cons st rest ih =>
    intro s s' hag hts
    have hnow : tc ≤ st.now := hts st (List.mem_cons_self st rest)
    have hagnow : activeGet st.now s (requestKey st.req) =
        activeGet st.now s' (requestKey st.req) :=
      activeGet_mono tc st.now s s' _ hnow (hag _)
    obtain ⟨E, h1, h2, hcall, hhead⟩ :=
      limiterStep_congr st.options s s' (requestKey st.req) st.now hagnow
    show outcomes
        (limiterStep st.options s (requestKey st.req) st.now ::
          runTrace (limiterStep st.options s (requestKey st.req) st.now).store rest) =
      outcomes
        (limiterStep st.options s' (requestKey st.req) st.now ::
          runTrace (limiterStep st.options s' (requestKey st.req) st.now).store rest)
    simp only [outcomes, List.map_cons]
    rw [hcall, hhead]
    congr 1
    show outcomes (runTrace _ rest) = outcomes (runTrace _ rest)
    rw [h1, h2]
    apply ih _ _ ?_ (fun b hb => hts b (List.mem_cons_of_mem st hb))
    intro k
    by_cases hk : k = requestKey st.req
    · subst hk
      rw [activeGet_mapSet_self, activeGet_mapSet_self]
    · rw [activeGet_mapSet_ne _ _ _ _ _ hk, activeGet_mapSet_ne _ _ _ _ _ hk]
      exact hag k

/-! ### Branch-selection lemmas -/

theorem limiterStep_fresh (o : RateLimitOptions) (s : Store) (key : String)
    (now : Int) (h : activeGet now s key = none) :
    limiterStep o s key now = freshResult o s key now := by
  rw [limiterStep_eq_activeGet, h]

theorem limiterStep_active (o : RateLimitOptions) (s : Store) (key : String)
    (now : Int) (e : RateLimitEntry) (h : activeGet now s key = some e) :
    limiterStep o s key now = activeResult o s key e now := by
  rw [limiterStep_eq_activeGet, h]

theorem activeGet_none_of (now : Int) (s : Store) (k : String)
    (h : mapGet s k = none ∨ ∃ e, mapGet s k = some e ∧ e.resetAt ≤ now) :
    activeGet now s k = none := by
  unfold activeGet
  rcases h with h | ⟨e, he, hle⟩
  · rw [h]
  · rw [he]
    dsimp only
    rw [if_pos hle]

theorem activeGet_of_live (now : Int) (s : Store) (k : String)
    (e : RateLimitEntry) (h : mapGet s k = some e) (hl : now < e.resetAt) :
    activeGet now s k = some e := by
  unfold activeGet
  rw [h]
  dsimp only
  rw [if_neg (not_le.mpr hl)]

theorem activeResult_call_next (o : RateLimitOptions) (s : Store) (key : String)
    (e : RateLimitEntry) (now : Int) (h : ¬o.maxRequests < e.count + 1) :
    (activeResult o s key e now).call = NextCall.next := by
  unfold activeResult
  simp [h]

theorem activeResult_call_deny (o : RateLimitOptions) (s : Store) (key : String)
    (e : RateLimitEntry) (now : Int) (h : o.maxRequests < e.count + 1) :
    (activeResult o s key e now).call =
      NextCall.apiError
        { message := jsOrString o.message
            ("Too many requests, please try again in " ++
              toString (jsCeilDiv (e.resetAt - now) 1000) ++ " seconds")
          statusCode := 429
          retryAfter := jsCeilDiv (e.resetAt - now) 1000 } := by
  unfold activeResult
  simp [h]

theorem activeResult_headers_core (o : RateLimitOptions) (s : Store)
    (key : String) (e : RateLimitEntry) (now : Int) :
    (activeResult o s key e now).headers.xRateLimitLimit = some o.maxRequests ∧
    (activeResult o s key e now).headers.xRateLimitRemaining =
      some (max 0 (o.maxRequests - (e.count + 1))) ∧
    (activeResult o s key e now).headers.xRateLimitReset = some e.resetAt := by
  unfold activeResult
  by_cases hc : o.maxRequests < e.count + 1 <;> simp [hc]

theorem activeResult_retry_header (o : RateLimitOptions) (s : Store)
    (key : String) (e : RateLimitEntry) (now : Int)
    (h : o.maxRequests < e.count + 1) :
    (activeResult o s key e now).headers.retryAfterHeader =
      some (jsCeilDiv (e.resetAt - now) 1000) := by
  unfold activeResult
  simp [h]

/-! ### Claim C4: a fresh window after expiry or absence -/

/-- Claim C4: for every key whose entry has expired (`resetAt` has elapsed at
the time of the request) and for every key with no entry, the next request for
that key starts a fresh window: the stored count becomes 1, the stored
`resetAt` becomes `now + windowMs`, and the request is admitted, given
`maxRequests ≥ 1`. -/
theorem fresh_window_resets_and_admits (o : RateLimitOptions) (s : Store)
    (req : Request) (now : Int) (_hmax : 1 ≤ o.maxRequests)
    (h : mapGet s (requestKey req) = none ∨
      ∃ e, mapGet s (requestKey req) = some e ∧ e.resetAt ≤ now) :
    (rateLimiter o s req now).call = NextCall.next ∧
    mapGet (rateLimiter o s req now).store (requestKey req) =
      some { count := 1, resetAt := now + o.windowMs } := by
  unfold rateLimiter
  rw [limiterStep_fresh o s _ now (activeGet_none_of now s _ h)]
  refine ⟨rfl, ?_⟩
  rw [freshResult_store]
  exact mapGet_mapSet_self s _ _

/-- Witness for C4 at a concrete input: empty table, policy with ceiling 2,
request from `1.2.3.4` to `/x` at time 0. -/
theorem fresh_window_resets_and_admits_witness :
    (rateLimiter { windowMs := 60000, maxRequests := 2, message := none }
      [] { ip := some "1.2.3.4", remoteAddress := none, path := "/x" } 0).call =
        NextCall.next ∧
    mapGet (rateLimiter { windowMs := 60000, maxRequests := 2, message := none }
      [] { ip := some "1.2.3.4", remoteAddress := none, path := "/x" } 0).store
      (requestKey { ip := some "1.2.3.4", remoteAddress := none, path := "/x" }) =
      some { count := 1, resetAt := 60000 } := by
  have h := fresh_window_resets_and_admits
    { windowMs := 60000, maxRequests := 2, message := none } []
    { ip := some "1.2.3.4", remoteAddress := none, path := "/x" } 0
    (by decide) (Or.inl (by decide))
  simpa using h

/-! ### Claim C5: the three rate-limit headers -/

/-- Claim C5: for every processed request (admitted or denied) under a policy
with `maxRequests ≥ 1`, `X-RateLimit-Remaining` is a non-negative integer
equal to `max(0, maxRequests - count)` where `count` is the entry's count
after the request has been accounted for; `X-RateLimit-Limit` equals
`maxRequests` and `X-RateLimit-Reset` equals the entry's `resetAt`. -/
theorem rate_limit_headers_correct (o : RateLimitOptions) (s : Store)
    (req : Request) (now : Int) (hmax : 1 ≤ o.maxRequests) :
    ∃ c R, mapGet (rateLimiter o s req now).store (requestKey req) =
        some { count := c, resetAt := R } ∧
      (rateLimiter o s req now).headers.xRateLimitRemaining =
        some (max 0 (o.maxRequests - c)) ∧
      (rateLimiter o s req now).headers.xRateLimitLimit = some o.maxRequests ∧
      (rateLimiter o s req now).headers.xRateLimitReset = some R ∧
      0 ≤ max 0 (o.maxRequests - c) := by
  unfold rateLimiter
  rw [limiterStep_eq_activeGet]
  cases hv : activeGet now s (requestKey req) with
  | none =>
    refine ⟨1, now + o.windowMs, ?_, ?_, rfl, rfl, le_max_left 0 _⟩
    · rw [freshResult_store]
      exact mapGet_mapSet_self s _ _
    · show some (o.maxRequests - 1) = some (max 0 (o.maxRequests - 1))
      rw [max_eq_right (by omega)]
  | some e =>
    obtain ⟨hl, hr, hres⟩ := activeResult_headers_core o s (requestKey req) e now
    refine ⟨e.count + 1, e.resetAt, ?_, hr, hl, hres, le_max_left 0 _⟩
    rw [activeResult_store]
    exact mapGet_mapSet_self s _ _

/-- Witness for C5 at a concrete input: the standard policy, one entry with
count 59 still live at time 10. -/
theorem rate_limit_headers_correct_witness :
    ∃ c R, mapGet (rateLimiter standardLimiterOptions
        [("9.9.9.9:/api", { count := 59, resetAt := 50000 })]
        { ip := some "9.9.9.9", remoteAddress := none, path := "/api" } 10).store
        (requestKey { ip := some "9.9.9.9", remoteAddress := none, path := "/api" }) =
        some { count := c, resetAt := R } ∧
      (rateLimiter standardLimiterOptions
        [("9.9.9.9:/api", { count := 59, resetAt := 50000 })]
        { ip := some "9.9.9.9", remoteAddress := none, path := "/api" } 10).headers.xRateLimitRemaining =
        some (max 0 (standardLimiterOptions.maxRequests - c)) ∧
      (rateLimiter standardLimiterOptions
        [("9.9.9.9:/api", { count := 59, resetAt := 50000 })]
        { ip := some "9.9.9.9", remoteAddress := none, path := "/api" } 10).headers.xRateLimitLimit =
        some standardLimiterOptions.maxRequests ∧
      (rateLimiter standardLimiterOptions
        [("9.9.9.9:/api", { count := 59, resetAt := 50000 })]
        { ip := some "9.9.9.9", remoteAddress := none, path := "/api" } 10).headers.xRateLimitReset =
        some R ∧
      0 ≤ max 0 (standardLimiterOptions.maxRequests - c) :=
  rate_limit_headers_correct standardLimiterOptions
    [("9.9.9.9:/api", { count := 59, resetAt := 50000 })]
    { ip := some "9.9.9.9", remoteAddress := none, path := "/api" } 10 (by decide)

/-! ### Claim C6: the shape of the denial error -/

/-- Claim C6: for every denied request, the produced error has status 429,
carries a `retryAfter` field equal to the ceiling of `(resetAt - now) / 1000`
seconds (certified by the two bounding inequalities), uses the configured
message when a non-empty one was provided and otherwise a default message
interpolating that number of seconds, and the `Retry-After` header is set to
the same integer; the error is passed via `next(error)` (the
`NextCall.apiError` outcome), not thrown. -/
theorem denial_error_shape (o : RateLimitOptions) (s : Store) (req : Request)
    (now : Int) (e : RateLimitEntry)
    (hget : mapGet s (requestKey req) = some e)
    (hlive : now < e.resetAt)
    (hexceed : o.maxRequests < e.count + 1) :
    ∃ err, (rateLimiter o s req now).call = NextCall.apiError err ∧
      err.statusCode = 429 ∧
      err.retryAfter = jsCeilDiv (e.resetAt - now) 1000 ∧
      1000 * (err.retryAfter - 1) < e.resetAt - now ∧
      e.resetAt - now ≤ 1000 * err.retryAfter ∧
      (rateLimiter o s req now).headers.retryAfterHeader = some err.retryAfter ∧
      (∀ m, o.message = some m → m ≠ "" → err.message = m) ∧
      (o.message = none →
        err.message = "Too many requests, please try again in " ++
          toString (jsCeilDiv (e.resetAt - now) 1000) ++ " seconds") := by
  unfold rateLimiter
  rw [limiterStep_active o s _ now e (activeGet_of_live now s _ e hget hlive)]
  refine ⟨_, activeResult_call_deny o s _ e now hexceed, rfl, rfl, ?_, ?_,
    activeResult_retry_header o s _ e now hexceed, ?_, ?_⟩
  · dsimp only
    unfold jsCeilDiv
    omega
  · dsimp only
    unfold jsCeilDiv
    omega
  · intro m hm hne
    simp [jsOrString, hm, hne]
  · intro hm
    simp [jsOrString, hm]

/-- Witness for C6 at a concrete input: ceiling 2, entry already at count 2,
denial at time 2000 of a 60000-window that started at time 0. -/
theorem denial_error_shape_witness :
    ∃ err, (rateLimiter { windowMs := 60000, maxRequests := 2, message := none }
        [("1.2.3.4:/x", { count := 2, resetAt := 60000 })]
        { ip := some "1.2.3.4", remoteAddress := none, path := "/x" } 2000).call =
        NextCall.apiError err ∧
      err.statusCode = 429 ∧
      err.retryAfter = jsCeilDiv (60000 - 2000) 1000 ∧
      1000 * (err.retryAfter - 1) < 60000 - 2000 ∧
      (60000 : Int) - 2000 ≤ 1000 * err.retryAfter ∧
      (rateLimiter { windowMs := 60000, maxRequests := 2, message := none }
        [("1.2.3.4:/x", { count := 2, resetAt := 60000 })]
        { ip := some "1.2.3.4", remoteAddress := none, path := "/x" } 2000).headers.retryAfterHeader =
        some err.retryAfter := by
  obtain ⟨err, h1, h2, h3, h4, h5, h6, _, _⟩ := denial_error_shape
    { windowMs := 60000, maxRequests := 2, message := none }
    [("1.2.3.4:/x", { count := 2, resetAt := 60000 })]
    { ip := some "1.2.3.4", remoteAddress := none, path := "/x" } 2000
    { count := 2, resetAt := 60000 } (by decide) (by decide) (by decide)
  exact ⟨err, h1, h2, h3, h4, h5, h6⟩

/-! ### Claim C10: the fresh branch never checks the ceiling -/

/-- Claim C10: for every policy, including one with `maxRequests ≤ 0`, the
first request of any window for a key (no entry present, or the existing
entry expired) is always admitted: the fresh-entry branch calls `next()`
unconditionally without comparing the count against `maxRequests`, so the
construction precondition `maxRequests ≥ 1` is never enforced, and a zero
ceiling still admits one request per window, with an `X-RateLimit-Remaining`
value of `maxRequests - 1` (that is, `-1` for a zero ceiling). -/
theorem fresh_branch_ignores_ceiling (o : RateLimitOptions) (s : Store)
    (req : Request) (now : Int)
    (h : mapGet s (requestKey req) = none ∨
      ∃ e, mapGet s (requestKey req) = some e ∧ e.resetAt ≤ now) :
    (rateLimiter o s req now).call = NextCall.next ∧
    mapGet (rateLimiter o s req now).store (requestKey req) =
      some { count := 1, resetAt := now + o.windowMs } ∧
    (rateLimiter o s req now).headers.xRateLimitRemaining =
      some (o.maxRequests - 1) ∧
    (o.maxRequests = 0 →
      (rateLimiter o s req now).headers.xRateLimitRemaining = some (-1)) := by
  unfold rateLimiter
  rw [limiterStep_fresh o s _ now (activeGet_none_of now s _ h)]
  refine ⟨rfl, ?_, rfl, ?_⟩
  · rw [freshResult_store]
    exact mapGet_mapSet_self s _ _
  · intro hz
    show some (o.maxRequests - 1) = some (-1)
    rw [hz]
    rfl

/-- Witness for C10 at a concrete input: a policy with ceiling 0 still admits
the first request of a window and sets a remaining header of -1. -/
theorem fresh_branch_ignores_ceiling_witness :
    (rateLimiter { windowMs := 1000, maxRequests := 0, message := none }
      [] { ip := some "5.6.7.8", remoteAddress := none, path := "/y" } 7).call =
      NextCall.next ∧
    mapGet (rateLimiter { windowMs := 1000, maxRequests := 0, message := none }
      [] { ip := some "5.6.7.8", remoteAddress := none, path := "/y" } 7).store
      (requestKey { ip := some "5.6.7.8", remoteAddress := none, path := "/y" }) =
      some { count := 1, resetAt := 1007 } ∧
    (rateLimiter { windowMs := 1000, maxRequests := 0, message := none }
      [] { ip := some "5.6.7.8", remoteAddress := none, path := "/y" } 7).headers.xRateLimitRemaining =
      some (-1) := by
  have h := fresh_branch_ignores_ceiling
    { windowMs := 1000, maxRequests := 0, message := none } []
    { ip := some "5.6.7.8", remoteAddress := none, path := "/y" } 7
    (Or.inl (by decide))
  refine ⟨h.1, ?_, h.2.2.2 rfl⟩
  have h2 := h.2.1
  simpa using h2

/-! ### Claim C1: counting within one window -/

/-- Starting from a table whose entry at the request's key has count `c` and
reset time `R`, a run of further requests for the same key, all at clock
readings before `R`, sees the `i`-th of them (0-based) admitted exactly when
`c + i + 1 ≤ maxRequests`, and denied with a status-429 error otherwise. -/
theorem runTrace_window_count (o : RateLimitOptions) (req : Request) :
    ∀ (ts : List Int) (s : Store) (c R : Int),
      mapGet s (requestKey req) = some { count := c, resetAt := R } →
      (∀ t ∈ ts, t < R) →
      ∀ i, i < ts.length →
        ((c + (i : Int) + 1 ≤ o.maxRequests →
          ((runTrace s (ts.map fun t => ⟨o, req, t⟩)).getD i dummyResult).call =
            NextCall.next) ∧
         (o.maxRequests < c + (i : Int) + 1 →
          ∃ e, ((runTrace s (ts.map fun t => ⟨o, req, t⟩)).getD i dummyResult).call =
              NextCall.apiError e ∧ e.statusCode = 429)) := by
  intro ts
  induction ts with
  | nil =>
    intro s c R _ _ i hi
    exact absurd hi (by simp)
  | cons t ts ih =>
    intro s c R hget hts i hi
    have hlive : t < R := hts t (List.mem_cons_self t ts)
    have hstep : rateLimiter o s req t =
        activeResult o s (requestKey req) { count := c, resetAt := R } t := by
      unfold rateLimiter
      exact limiterStep_active o s _ t _ (activeGet_of_live t s _ _ hget hlive)
    have hrun : runTrace s ((t :: ts).map fun u => ⟨o, req, u⟩) =
        rateLimiter o s req t ::
          runTrace (rateLimiter o s req t).store (ts.map fun u => ⟨o, req, u⟩) := rfl
    cases i with
    | zero =>
      rw [hrun, List.getD_cons_zero, hstep]
      constructor
      · intro hle
        exact activeResult_call_next o s _ _ t (by dsimp only; omega)
      · intro hgt
        exact ⟨_, activeResult_call_deny o s _ _ t (by dsimp only; omega), rfl⟩
    | succ j =>
      rw [hrun, List.getD_cons_succ]
      have hstore : (rateLimiter o s req t).store =
          mapSet s (requestKey req) { count := c + 1, resetAt := R } := by
        rw [hstep, activeResult_store]
      have hget2 : mapGet (rateLimiter o s req t).store (requestKey req) =
          some { count := c + 1, resetAt := R } := by
        rw [hstore]
        exact mapGet_mapSet_self s _ _
      have hts2 : ∀ u ∈ ts, u < R := fun u hu => hts u (List.mem_cons_of_mem t hu)
      have hj : j < ts.length := by simpa using hi
      have := ih (rateLimiter o s req t).store (c + 1) R hget2 hts2 j hj
      constructor
      · intro hle
        exact this.1 (by push_cast at hle ⊢; omega)
      · intro hgt
        exact this.2 (by push_cast at hgt ⊢; omega)

/-- Claim C1: for every policy with `maxRequests ≥ 1` and `windowMs > 0`, and
for every sequence of requests from a single identifier to a single route all
falling within one window (the window opened by the first request, at a key
with no live entry), the `N`-th request with `N ≤ maxRequests` is admitted
(the handler calls `next()` with no error) and every request beyond
`maxRequests` within that window is denied with a structured error of status
429.  Here `N = i + 1` for the 0-based index `i`. -/
theorem window_admits_first_max_requests (o : RateLimitOptions) (req : Request)
    (s : Store) (t0 : Int) (rest : List Int)
    (hmax : 1 ≤ o.maxRequests) (_hwin : 0 < o.windowMs)
    (hfresh : mapGet s (requestKey req) = none ∨
      ∃ e, mapGet s (requestKey req) = some e ∧ e.resetAt ≤ t0)
    (hrest : ∀ t ∈ rest, t < t0 + o.windowMs) :
    ∀ i, i < (t0 :: rest).length →
      (((i : Int) + 1 ≤ o.maxRequests →
        ((runTrace s ((t0 :: rest).map fun t => ⟨o, req, t⟩)).getD i
            dummyResult).call = NextCall.next) ∧
       (o.maxRequests < (i : Int) + 1 →
        ∃ e, ((runTrace s ((t0 :: rest).map fun t => ⟨o, req, t⟩)).getD i
            dummyResult).call = NextCall.apiError e ∧ e.statusCode = 429)) := by
  intro i hi
  have hstep : rateLimiter o s req t0 = freshResult o s (requestKey req) t0 := by
    unfold rateLimiter
    exact limiterStep_fresh o s _ t0 (activeGet_none_of t0 s _ hfresh)
  have hrun : runTrace s ((t0 :: rest).map fun u => ⟨o, req, u⟩) =
      rateLimiter o s req t0 ::
        runTrace (rateLimiter o s req t0).store (rest.map fun u => ⟨o, req, u⟩) := rfl
  cases i with
  | zero =>
    rw [hrun, List.getD_cons_zero, hstep]
    exact ⟨fun _ => rfl, fun hgt => absurd hgt (by push_cast; omega)⟩
  | succ j =>
    rw [hrun, List.getD_cons_succ]
    have hget2 : mapGet (rateLimiter o s req t0).store (requestKey req) =
        some { count := 1, resetAt := t0 + o.windowMs } := by
      rw [hstep, freshResult_store]
      exact mapGet_mapSet_self s _ _
    have hj : j < rest.length := by simpa using hi
    have := runTrace_window_count o req rest (rateLimiter o s req t0).store 1
      (t0 + o.windowMs) hget2 hrest j hj
    constructor
    · intro hle
      exact this.1 (by push_cast at hle ⊢; omega)
    · intro hgt
      exact this.2 (by push_cast at hgt ⊢; omega)

/-- Witness for C1 at a concrete input: ceiling 2, window 60000 opened at time
0, requests at times 0, 1000, 2000; the first two are admitted and the third
is denied with status 429. -/
theorem window_admits_first_max_requests_witness :
    (((runTrace [] (([0, 1000, 2000] : List Int).map fun t =>
        ⟨{ windowMs := 60000, maxRequests := 2, message := none },
          { ip := some "1.2.3.4", remoteAddress := none, path := "/x" }, t⟩)).getD 1
        dummyResult).call = NextCall.next) ∧
    (∃ e, ((runTrace [] (([0, 1000, 2000] : List Int).map fun t =>
        ⟨{ windowMs := 60000, maxRequests := 2, message := none },
          { ip := some "1.2.3.4", remoteAddress := none, path := "/x" }, t⟩)).getD 2
        dummyResult).call = NextCall.apiError e ∧ e.statusCode = 429) := by
  have h1 := window_admits_first_max_requests
    { windowMs := 60000, maxRequests := 2, message := none }
    { ip := some "1.2.3.4", remoteAddress := none, path := "/x" }
    [] 0 [1000, 2000] (by decide) (by decide) (Or.inl (by decide))
    (by intro t ht; fin_cases ht <;> decide) 1 (by decide)
  have h2 := window_admits_first_max_requests
    { windowMs := 60000, maxRequests := 2, message := none }
    { ip := some "1.2.3.4", remoteAddress := none, path := "/x" }
    [] 0 [1000, 2000] (by decide) (by decide) (Or.inl (by decide))
    (by intro t ht; fin_cases ht <;> decide) 2 (by decide)
  exact ⟨h1.1 (by decide), h2.2 (by decide)⟩

/-! ### Claim C8: the sweep removes exactly the expired entries -/

/-- Claim C8: for every table state (a duplicate-free table, as every `Map`
state is) and every sweep time `now`, the background sweep removes exactly
those entries whose `resetAt` has passed at time `now` (`resetAt ≤ now`);
every entry whose window is still active (`now < resetAt`) is present and
unchanged after the sweep, and no binding appears for keys that had none. -/
theorem sweep_removes_exactly_expired (now : Int) (s : Store) (hwf : StoreWF s) :
    ∀ k, (mapGet s k = none → mapGet (sweep now s) k = none) ∧
      (∀ e, mapGet s k = some e → e.resetAt ≤ now →
        mapGet (sweep now s) k = none) ∧
      (∀ e, mapGet s k = some e → now < e.resetAt →
        mapGet (sweep now s) k = some e) := by
  intro k
  have h := mapGet_sweep now s hwf k
  unfold activeGet at h
  refine ⟨?_, ?_, ?_⟩
  · intro h0
    rw [h, h0]
  · intro e he hle
    rw [h, he]
    dsimp only
    rw [if_pos hle]
  · intro e he hlt
    rw [h, he]
    dsimp only
    rw [if_neg (not_le.mpr hlt)]

/-- Witness for C8 at a concrete input: at time 50 the sweep removes the
entry that expired at 10 and keeps the one expiring at 100 unchanged. -/
theorem sweep_removes_exactly_expired_witness :
    mapGet (sweep 50 [("a:/x", { count := 1, resetAt := 10 }),
      ("b:/y", { count := 2, resetAt := 100 })]) "a:/x" = none ∧
    mapGet (sweep 50 [("a:/x", { count := 1, resetAt := 10 }),
      ("b:/y", { count := 2, resetAt := 100 })]) "b:/y" =
      some { count := 2, resetAt := 100 } := by
  have h1 := sweep_removes_exactly_expired 50
    [("a:/x", { count := 1, resetAt := 10 }),
      ("b:/y", { count := 2, resetAt := 100 })] (by decide) "a:/x"
  have h2 := sweep_removes_exactly_expired 50
    [("a:/x", { count := 1, resetAt := 10 }),
      ("b:/y", { count := 2, resetAt := 100 })] (by decide) "b:/y"
  exact ⟨h1.2.1 { count := 1, resetAt := 10 } (by decide) (by decide),
    h2.2.2 { count := 2, resetAt := 100 } (by decide) (by decide)⟩

/-! ### Claim C7: sweeping commutes with the decision procedure -/

/-- Claim C7: running the background sweep at any moment does not change the
outcome of any subsequent admission decision: for every (duplicate-free)
table state and every subsequent request sequence whose clock readings are at
least the sweep time, the calls and header values produced are identical
whether or not the sweep ran first, because the decision procedure already
treats expired entries as absent. -/
theorem sweep_preserves_decisions (tc : Int) (s : Store) (hwf : StoreWF s)
    (steps : List TraceStep) (hsteps : ∀ st ∈ steps, tc ≤ st.now) :
    outcomes (runTrace (sweep tc s) steps) = outcomes (runTrace s steps) :=
  outcomes_runTrace_congr tc steps (sweep tc s) s
    (fun k => activeGet_sweep tc s hwf k) hsteps

/-- Witness for C7 at a concrete input: a table with one expired and one live
entry, swept at time 50, followed by two requests (one reuses the expired
key, one is fresh). -/
theorem sweep_preserves_decisions_witness :
    outcomes (runTrace (sweep 50 [("a:/x", { count := 3, resetAt := 10 }),
        ("b:/y", { count := 2, resetAt := 100 })])
      [⟨{ windowMs := 1000, maxRequests := 1, message := none },
          { ip := some "a", remoteAddress := none, path := "/x" }, 60⟩,
        ⟨{ windowMs := 1000, maxRequests := 1, message := none },
          { ip := some "b", remoteAddress := none, path := "/y" }, 70⟩]) =
    outcomes (runTrace [("a:/x", { count := 3, resetAt := 10 }),
        ("b:/y", { count := 2, resetAt := 100 })]
      [⟨{ windowMs := 1000, maxRequests := 1, message := none },
          { ip := some "a", remoteAddress := none, path := "/x" }, 60⟩,
        ⟨{ windowMs := 1000, maxRequests := 1, message := none },
          { ip := some "b", remoteAddress := none, path := "/y" }, 70⟩]) :=
  sweep_preserves_decisions 50
    [("a:/x", { count := 3, resetAt := 10 }),
      ("b:/y", { count := 2, resetAt := 100 })] (by decide)
    [⟨{ windowMs := 1000, maxRequests := 1, message := none },
        { ip := some "a", remoteAddress := none, path := "/x" }, 60⟩,
      ⟨{ windowMs := 1000, maxRequests := 1, message := none },
        { ip := some "b", remoteAddress := none, path := "/y" }, 70⟩]
    (by intro st hst; fin_cases hst <;> decide)

/-! ### Claim C3: frame property across distinct keys -/

/-- Processing a request touches only its own composite key: the binding of
every other key is left exactly as it was. -/
theorem rateLimiter_frame (o : RateLimitOptions) (s : Store) (req : Request)
    (now : Int) (k : String) (hne : k ≠ requestKey req) :
    mapGet (rateLimiter o s req now).store k = mapGet s k := by
  obtain ⟨E, h1, _, _, _⟩ := limiterStep_congr o s s (requestKey req) now rfl
  rw [show (rateLimiter o s req now).store =
      (limiterStep o s (requestKey req) now).store from rfl, h1]
  exact mapGet_mapSet_ne s _ E k hne

/-- Counterexample to C3 as stated: the composite key is the plain string
concatenation `identifier ++ ":" ++ path`, which is not injective in the
pair.  The two distinct (identifier, route) pairs `("a", "/b:/c")` and
`("a:/b", "/c")` produce the same key, so processing a request for the first
pair creates the counter entry of the second, and once the first pair's quota
(ceiling 1) is exhausted, the very first request of the second pair is denied
with status 429. -/
theorem distinct_pairs_share_entry_counterexample :
    (resolveIdentifier { ip := some "a", remoteAddress := none, path := "/b:/c" },
        ("/b:/c" : String)) ≠
      (resolveIdentifier { ip := some "a:/b", remoteAddress := none, path := "/c" },
        ("/c" : String)) ∧
    mapGet (rateLimiter { windowMs := 1000, maxRequests := 1, message := none }
        [] { ip := some "a", remoteAddress := none, path := "/b:/c" } 0).store
      (requestKey { ip := some "a:/b", remoteAddress := none, path := "/c" }) ≠
      mapGet ([] : Store)
        (requestKey { ip := some "a:/b", remoteAddress := none, path := "/c" }) ∧
    ((runTrace []
        [⟨{ windowMs := 1000, maxRequests := 1, message := none },
            { ip := some "a", remoteAddress := none, path := "/b:/c" }, 0⟩,
          ⟨{ windowMs := 1000, maxRequests := 1, message := none },
            { ip := some "a", remoteAddress := none, path := "/b:/c" }, 1⟩,
          ⟨{ windowMs := 1000, maxRequests := 1, message := none },
            { ip := some "a:/b", remoteAddress := none, path := "/c" }, 2⟩]).getD 2
        dummyResult).call =
      NextCall.apiError
        { message := "Too many requests, please try again in 1 seconds"
          statusCode := 429, retryAfter := 1 } := by
  refine ⟨by decide, by decide, by decide⟩

/-- Claim C3 (amended): for every two requests whose composite keys
`identifier ++ ":" ++ route` differ as strings — in particular any two
requests with distinct identifiers, or the same identifier on two distinct
routes, for which the concatenation introduces no colon ambiguity — the
requests never share a counter entry: processing a request for one key leaves
the counter entry of the other key unchanged, and the other key's next
decision (call and headers), under any policy and at any time, is exactly
what it would have been without that processing, so exhausting one key's
quota never causes denial for the other. -/
theorem distinct_keys_no_shared_counter (o : RateLimitOptions) (s : Store)
    (req req' : Request) (now : Int)
    (hne : requestKey req' ≠ requestKey req) :
    mapGet (rateLimiter o s req now).store (requestKey req') =
      mapGet s (requestKey req') ∧
    ∀ (o' : RateLimitOptions) (now' : Int),
      (rateLimiter o' (rateLimiter o s req now).store req' now').call =
        (rateLimiter o' s req' now').call ∧
      (rateLimiter o' (rateLimiter o s req now).store req' now').headers =
        (rateLimiter o' s req' now').headers := by
  have hframe := rateLimiter_frame o s req now (requestKey req') hne
  refine ⟨hframe, ?_⟩
  intro o' now'
  have hact : activeGet now' (rateLimiter o s req now).store (requestKey req') =
      activeGet now' s (requestKey req') := by
    unfold activeGet
    rw [hframe]
  obtain ⟨E, _, _, hcall, hhead⟩ :=
    limiterStep_congr o' (rateLimiter o s req now).store s (requestKey req') now' hact
  exact ⟨hcall, hhead⟩

/-- Witness for the amended C3 at a concrete input: same identifier on two
colon-free routes; exhausting `/x` leaves `/y` untouched and its first
request is still admitted. -/
theorem distinct_keys_no_shared_counter_witness :
    mapGet (rateLimiter { windowMs := 1000, maxRequests := 1, message := none }
        [("1.2.3.4:/x", { count := 1, resetAt := 1000 })]
        { ip := some "1.2.3.4", remoteAddress := none, path := "/x" } 5).store
      (requestKey { ip := some "1.2.3.4", remoteAddress := none, path := "/y" }) =
      mapGet ([("1.2.3.4:/x", { count := 1, resetAt := 1000 })] : Store)
        (requestKey { ip := some "1.2.3.4", remoteAddress := none, path := "/y" }) ∧
    (rateLimiter { windowMs := 1000, maxRequests := 1, message := none }
        (rateLimiter { windowMs := 1000, maxRequests := 1, message := none }
          [("1.2.3.4:/x", { count := 1, resetAt := 1000 })]
          { ip := some "1.2.3.4", remoteAddress := none, path := "/x" } 5).store
        { ip := some "1.2.3.4", remoteAddress := none, path := "/y" } 6).call =
      (rateLimiter { windowMs := 1000, maxRequests := 1, message := none }
        [("1.2.3.4:/x", { count := 1, resetAt := 1000 })]
        { ip := some "1.2.3.4", remoteAddress := none, path := "/y" } 6).call := by
  have h := distinct_keys_no_shared_counter
    { windowMs := 1000, maxRequests := 1, message := none }
    [("1.2.3.4:/x", { count := 1, resetAt := 1000 })]
    { ip := some "1.2.3.4", remoteAddress := none, path := "/x" }
    { ip := some "1.2.3.4", remoteAddress := none, path := "/y" } 5 (by decide)
  exact ⟨h.1, (h.2 { windowMs := 1000, maxRequests := 1, message := none } 6).1⟩

/-! ### Claim C2: interleaving two limiter instances -/

/-- One step of an interleaved run through two limiter instances: `useFirst`
tells which instance's handler the request went through. -/
structure MixedStep where
  useFirst : Bool
  req : Request
  now : Int

/-- Run an interleaving through the shared table and record the calls and
headers of the requests that went through the second instance. -/
def secondOutcomes (oA oB : RateLimitOptions) :
    Store → List MixedStep → List (NextCall × ResponseHeaders)
  | _, [] => []
  | s, st :: rest =>
    let r := rateLimiter (if st.useFirst then oA else oB) s st.req st.now
    if st.useFirst then secondOutcomes oA oB r.store rest
    else (r.call, r.headers) :: secondOutcomes oA oB r.store rest

/-- The subsequence of an interleaving that went through the second
instance, as a trace of its own. -/
def onlySecond (oB : RateLimitOptions) : List MixedStep → List TraceStep
  | [] => []
  | st :: rest =>
    if st.useFirst then onlySecond oB rest
    else ⟨oB, st.req, st.now⟩ :: onlySecond oB rest

/-- Interleaving engine: if the two stores agree at the key of every
second-instance step, and every first-instance step's key differs from every
second-instance step's key, then the second instance observes in the
interleaved run exactly the calls and headers of running its own requests
alone. -/
theorem secondOutcomes_eq (oA oB : RateLimitOptions) :
    ∀ (steps : List MixedStep) (s s' : Store),
      (∀ b ∈ steps, b.useFirst = false →
        mapGet s (requestKey b.req) = mapGet s' (requestKey b.req)) →
      (∀ a ∈ steps, ∀ b ∈ steps, a.useFirst = true → b.useFirst = false →
        requestKey a.req ≠ requestKey b.req) →
      secondOutcomes oA oB s steps = outcomes (runTrace s' (onlySecond oB steps)) := by
  intro steps
  induction steps with
  | nil =>
    intro s s' _ _
    rfl
  | cons st rest ih =>
    intro s s' hag hdisj
    have hdisj2 : ∀ a ∈ rest, ∀ b ∈ rest, a.useFirst = true → b.useFirst = false →
        requestKey a.req ≠ requestKey b.req :=
      fun a ha b hb => hdisj a (List.mem_cons_of_mem st ha) b (List.mem_cons_of_mem st hb)
    by_cases hf : st.useFirst
    · have e1 : secondOutcomes oA oB s (st :: rest) =
          secondOutcomes oA oB (rateLimiter oA s st.req st.now).store rest := by
        simp [secondOutcomes, hf]
      have e2 : onlySecond oB (st :: rest) = onlySecond oB rest := by
        simp [onlySecond, hf]
      rw [e1, e2]
      apply ih _ s' ?_ hdisj2
      intro b hb hbf
      have hne : requestKey b.req ≠ requestKey st.req :=
        Ne.symm (hdisj st (List.mem_cons_self st rest) b (List.mem_cons_of_mem st hb) hf hbf)
      rw [rateLimiter_frame oA s st.req st.now (requestKey b.req) hne]
      exact hag b (List.mem_cons_of_mem st hb) hbf
    · have hbf0 : st.useFirst = false := by simpa using hf
      have hkey : mapGet s (requestKey st.req) = mapGet s' (requestKey st.req) :=
        hag st (List.mem_cons_self st rest) hbf0
      have hact : activeGet st.now s (requestKey st.req) =
          activeGet st.now s' (requestKey st.req) := by
        unfold activeGet
        rw [hkey]
      obtain ⟨E, h1, h2, hcall, hhead⟩ :=
        limiterStep_congr oB s s' (requestKey st.req) st.now hact
      have e1 : secondOutcomes oA oB s (st :: rest) =
          ((rateLimiter oB s st.req st.now).call,
            (rateLimiter oB s st.req st.now).headers) ::
            secondOutcomes oA oB (rateLimiter oB s st.req st.now).store rest := by
        simp [secondOutcomes, hbf0]
      have e2 : onlySecond oB (st :: rest) =
          ⟨oB, st.req, st.now⟩ :: onlySecond oB rest := by
        simp [onlySecond, hbf0]
      rw [e1, e2]
      show _ = outcomes (rateLimiter oB s' st.req st.now ::
        runTrace (rateLimiter oB s' st.req st.now).store (onlySecond oB rest))
      simp only [outcomes, List.map_cons]
      rw [show (rateLimiter oB s st.req st.now).call =
          (rateLimiter oB s' st.req st.now).call from hcall,
        show (rateLimiter oB s st.req st.now).headers =
          (rateLimiter oB s' st.req st.now).headers from hhead]
      congr 1
      show secondOutcomes oA oB _ rest = outcomes (runTrace _ (onlySecond oB rest))
      apply ih _ _ ?_ hdisj2
      intro b hb hbf
      rw [show (rateLimiter oB s st.req st.now).store =
          mapSet s (requestKey st.req) E from h1,
        show (rateLimiter oB s' st.req st.now).store =
          mapSet s' (requestKey st.req) E from h2]
      by_cases hbk : requestKey b.req = requestKey st.req
      · rw [hbk, mapGet_mapSet_self, mapGet_mapSet_self]
      · rw [mapGet_mapSet_ne s _ E _ hbk, mapGet_mapSet_ne s' _ E _ hbk]
        exact hag b (List.mem_cons_of_mem st hb) hbf

/-- Counterexample to C2 as stated: all limiter instances share the single
global table keyed only by `identifier:path`, with no instance component in
the key.  With two instances of different policies (window 2000 / ceiling 3
versus window 1000 / ceiling 1) and the same request key going through both,
one request through the first instance changes the second instance's decision
on its very first request (denied in the interleaving, admitted alone), so
the second instance's decision depended on a counter entry the first instance
updated. -/
theorem instances_share_counter_counterexample :
    ({ windowMs := 2000, maxRequests := 3, message := none } : RateLimitOptions) ≠
      { windowMs := 1000, maxRequests := 1, message := none } ∧
    secondOutcomes { windowMs := 2000, maxRequests := 3, message := none }
        { windowMs := 1000, maxRequests := 1, message := none } []
        [⟨true, { ip := some "a", remoteAddress := none, path := "/x" }, 0⟩,
          ⟨false, { ip := some "a", remoteAddress := none, path := "/x" }, 1⟩] ≠
      outcomes (runTrace []
        (onlySecond { windowMs := 1000, maxRequests := 1, message := none }
          [⟨true, { ip := some "a", remoteAddress := none, path := "/x" }, 0⟩,
            ⟨false, { ip := some "a", remoteAddress := none, path := "/x" }, 1⟩])) := by
  refine ⟨by decide, by decide⟩

/-- Claim C2 (amended): all limiter instances share one global counter table
keyed by `identifier:path` alone, so the counters of two instances
constructed with different policies are logically independent exactly when
the composite keys of the requests routed through one instance all differ
from those routed through the other; under that key-disjointness, for any
interleaving of requests through the two instances, the second instance's
decisions and headers are identical to those of running its requests alone
(and symmetrically, by swapping the labels). -/
theorem instances_independent_of_disjoint_keys (oA oB : RateLimitOptions)
    (s : Store) (steps : List MixedStep)
    (hdisj : ∀ a ∈ steps, ∀ b ∈ steps, a.useFirst = true → b.useFirst = false →
      requestKey a.req ≠ requestKey b.req) :
    secondOutcomes oA oB s steps = outcomes (runTrace s (onlySecond oB steps)) :=
  secondOutcomes_eq oA oB steps s s (fun _ _ _ => rfl) hdisj

/-- Witness for the amended C2 at a concrete input: an auth-policy instance
on `/login` and a standard-policy instance on `/api`, interleaved from the
empty table. -/
theorem instances_independent_of_disjoint_keys_witness :
    secondOutcomes authLimiterOptions standardLimiterOptions []
        [⟨true, { ip := some "1.2.3.4", remoteAddress := none, path := "/login" }, 0⟩,
          ⟨false, { ip := some "1.2.3.4", remoteAddress := none, path := "/api" }, 1⟩,
          ⟨false, { ip := some "1.2.3.4", remoteAddress := none, path := "/api" }, 2⟩] =
      outcomes (runTrace []
        (onlySecond standardLimiterOptions
          [⟨true, { ip := some "1.2.3.4", remoteAddress := none, path := "/login" }, 0⟩,
            ⟨false, { ip := some "1.2.3.4", remoteAddress := none, path := "/api" }, 1⟩,
            ⟨false, { ip := some "1.2.3.4", remoteAddress := none, path := "/api" }, 2⟩])) :=
  instances_independent_of_disjoint_keys authLimiterOptions standardLimiterOptions []
    [⟨true, { ip := some "1.2.3.4", remoteAddress := none, path := "/login" }, 0⟩,
      ⟨false, { ip := some "1.2.3.4", remoteAddress := none, path := "/api" }, 1⟩,
      ⟨false, { ip := some "1.2.3.4", remoteAddress := none, path := "/api" }, 2⟩]
    (by intro a ha b hb hat hbf
        fin_cases ha <;> fin_cases hb <;> simp_all <;> decide)

/-! ### Claim C9: the try/catch and the sentinel identifier -/

/-- Claim C9: the handler never propagates an unhandled exception: any
failure raised while resolving the identifier is caught and forwarded to the
error-handling collaborator via `next(error)` (the `NextCall.caught`
outcome), with the table and headers untouched; and when no identifier is
resolvable (both `req.ip` and `req.socket.remoteAddress` are absent or the
empty string) the handler falls back to the sentinel identifier `unknown`
instead of failing. -/
theorem handler_catches_and_falls_back (o : RateLimitOptions) (s : Store)
    (getIp getRemoteAddress : Except String (Option String)) (path : String)
    (now : Int) :
    (∀ e, resolveIdentifierE getIp getRemoteAddress = Except.error e →
      rateLimiterChecked o s getIp getRemoteAddress path now =
        { store := s, headers := noHeaders, call := NextCall.caught e }) ∧
    ((getIp = Except.ok none ∨ getIp = Except.ok (some "")) →
      (getRemoteAddress = Except.ok none ∨
        getRemoteAddress = Except.ok (some "")) →
      rateLimiterChecked o s getIp getRemoteAddress path now =
        limiterStep o s ("unknown" ++ ":" ++ path) now) := by
  constructor
  · intro e he
    unfold rateLimiterChecked
    rw [he]
  · intro hip hra
    have hres : resolveIdentifierE getIp getRemoteAddress = Except.ok "unknown" := by
      rcases hip with h | h <;> rcases hra with h' | h' <;> rw [h, h'] <;> rfl
    unfold rateLimiterChecked
    rw [hres]

/-- Witness for C9 at concrete inputs: a throwing `req.ip` getter is caught
and forwarded, and a request with no resolvable identifier is keyed under
`unknown`. -/
theorem handler_catches_and_falls_back_witness :
    rateLimiterChecked { windowMs := 1000, maxRequests := 1, message := none }
        [] (Except.error "boom") (Except.ok none) "/x" 0 =
      { store := [], headers := noHeaders, call := NextCall.caught "boom" } ∧
    rateLimiterChecked { windowMs := 1000, maxRequests := 1, message := none }
        [] (Except.ok none) (Except.ok (some "")) "/x" 0 =
      limiterStep { windowMs := 1000, maxRequests := 1, message := none }
        [] ("unknown" ++ ":" ++ "/x") 0 :=
  ⟨(handler_catches_and_falls_back
      { windowMs := 1000, maxRequests := 1, message := none } []
      (Except.error "boom") (Except.ok none) "/x" 0).1 "boom" rfl,
    (handler_catches_and_falls_back
      { windowMs := 1000, maxRequests := 1, message := none } []
      (Except.ok none) (Except.ok (some "")) "/x" 0).2 (Or.inl rfl) (Or.inr rfl)⟩

end RL
